import Mathlib

/-!
Verification development for the EBCDIC dataset converter
(`server/system-cmds/functions/ebcdic_dataset_converter.py`).

The Python source is shallowly embedded: bytes are `Nat` (values < 256),
byte strings are `List Nat`, Python text strings are `String` or
`List Char`, and the stateful record loop is an explicit fold over the
list of records.  Python's fallible per-record body is modelled with
`Except`.
-/

namespace EbcdicConverter

/-- Python truthiness of an optional string (`None` and `""` are falsy). -/
def py_truthy : Option String → Bool
  | none => false
  | some s => s != ""

/-- Python `a or default` on an optional string (`None`/`""` fall back). -/
def py_or : Option String → String → String
  | none, d => d
  | some s, d => if s = "" then d else s

/-- Python `str.strip()` on a character list: drop leading and trailing
whitespace. -/
def strip_chars (l : List Char) : List Char :=
  ((l.dropWhile Char.isWhitespace).reverse.dropWhile Char.isWhitespace).reverse

/-- Python `str.strip()` at `String` type. -/
def py_strip (s : String) : String :=
  String.mk (strip_chars s.data)

/-- Python `str.upper()`: uppercase every character. -/
def upper_string (s : String) : String :=
  String.mk (s.data.map Char.toUpper)

/-- Numeric value of a list of decimal digit characters (`int(ds)`). -/
def digits_to_nat (ds : List Char) : Nat :=
  ds.foldl (fun n c => 10 * n + (c.toNat - 48)) 0

/-- One attempt of the regex `([9XAN])\((\d+)\)` anchored at the head of
the character list: a class symbol, `(`, a nonempty digit run, `)`. -/
def match_paren_at : List Char → Option (Char × Nat)
  | c :: '(' :: rest =>
    if c = '9' ∨ c = 'X' ∨ c = 'A' ∨ c = 'N' then
      let ds := rest.takeWhile Char.isDigit
      if ds.isEmpty then none
      else
        match rest.drop ds.length with
        | ')' :: _ => some (c, digits_to_nat ds)
        | _ => none
    else none
  | _ => none

/-- `re.search` of `([9XAN])\((\d+)\)`: leftmost match wins
(`ebcdic_dataset_converter.py` line 122). -/
def search_paren : List Char → Option (Char × Nat)
  | [] => none
  | c :: rest =>
    match match_paren_at (c :: rest) with
    | some r => some r
    | none => search_paren rest

/-- Helper for `run_lens`: scans from the right, returning the length of
the run of `c` touching the left end plus the remaining run lengths. -/
def run_lens_aux (c : Char) : List Char → Nat × List Nat
  | [] => (0, [])
  | x :: xs =>
    let p := run_lens_aux c xs
    if x = c then (p.1 + 1, p.2)
    else (0, if p.1 = 0 then p.2 else p.1 :: p.2)

/-- `re.findall(c + '+', s)` as the list of lengths of the maximal runs of
the character `c`, in left-to-right order. -/
def run_lens (c : Char) (l : List Char) : List Nat :=
  let p := run_lens_aux c l
  if p.1 = 0 then p.2 else p.1 :: p.2

/-- The four symbol classes scanned by `parse_picture_clause`
(lines 146-150): `9`, `X`, `A`, `N` with their data-type names. -/
def class_patterns : List (Char × String) :=
  [('9', "NUMERIC"), ('X', "ALPHANUMERIC"), ('A', "ALPHA"), ('N', "NATIONAL")]

/-- The fallback counting loop of `parse_picture_clause` (lines 141-152):
for each class, every maximal run adds its length to the total and the
class with a match (last in pattern order) names the data type. -/
def count_loop : List (Char × String) → List Char → Nat → String → Nat × String
  | [], _, total, dt => (total, dt)
  | (c, ct) :: ps, wp, total, dt =>
    let ms := run_lens c wp
    count_loop ps wp (total + ms.sum) (if ms.isEmpty then dt else ct)

/-- The preprocessed picture of `parse_picture_clause` (lines 112-119):
uppercase, strip, drop every `V`, drop one leading `S`. -/
def working_picture (picture : String) : List Char :=
  let pic := strip_chars (picture.data.map Char.toUpper)
  let noV := pic.filter (fun c => c ≠ 'V')
  match noV with
  | 'S' :: rest => rest
  | other => other

/-- Data-type name chosen for a parenthesized match (lines 127-137). -/
def paren_data_type (c : Char) : String :=
  if c = '9' then "NUMERIC"
  else if c = 'X' then "ALPHANUMERIC"
  else if c = 'A' then "ALPHA"
  else if c = 'N' then "NATIONAL"
  else "DISPLAY"

/-- `EnhancedCOBOLParser.parse_picture_clause` (lines 109-152): returns
the digit count and the data-type name for a PIC clause. -/
def parse_picture_clause (picture : String) : Nat × String :=
  let wp := working_picture picture
  match search_paren wp with
  | some (c, n) => (n, paren_data_type c)
  | none =>
    let tc := count_loop class_patterns wp 0 ("DISPLAY")
    (max tc.1 1, tc.2)

/-- `EnhancedCOBOLParser.USAGE_TYPES` (lines 95-107). -/
def usage_types : List (String × String) :=
  [("DISPLAY", "PIC"),
   ("COMPUTATIONAL", "COMP"),
   ("COMPUTATIONAL-1", "COMP-1"),
   ("COMPUTATIONAL-2", "COMP-2"),
   ("COMPUTATIONAL-3", "COMP-3"),
   ("COMPUTATIONAL-4", "COMP-4"),
   ("COMPUTATIONAL-5", "COMP-5"),
   ("PACKED-DECIMAL", "COMP-3"),
   ("BINARY", "COMP"),
   ("INDEX", "INDEX"),
   ("POINTER", "POINTER")]

/-- `USAGE_TYPES.get(u, 'PIC')`. -/
def usage_type_of (u : String) : String :=
  ((usage_types.lookup u).getD ("PIC"))

/-- `LayoutField` (lines 42-56).  `level` is kept as the parsed number;
only the named fields below are used by the embedded operations. -/
structure LayoutField where
  name : String
  level : Nat
  type : String
  picture : String
  length : Nat
  position : Nat
  occurs : Nat := 1
  redefines : Option String := none
  value : Option String := none
  usage : Option String := none
  description : String := ""

/-- `EnhancedCOBOLParser.calculate_field_length` (lines 154-177). -/
def calculate_field_length (f : LayoutField) : Nat :=
  let base := (parse_picture_clause f.picture).1
  if f.type ∈ ["COMP", "COMP-4", "COMP-5"] then
    if base ≤ 4 then 2
    else if base ≤ 9 then 4
    else 8
  else if f.type = "COMP-1" then 4
  else if f.type = "COMP-2" then 8
  else if f.type = "COMP-3" then (base + 1) / 2
  else base * f.occurs

/-- The subset of `ConversionConfig` (lines 58-73) consulted by the
embedded operations; file paths and catalog linkage are external I/O
identifiers not used by the byte-level functions. -/
structure ConversionConfig where
  record_length : Nat := 80
  sosi_so : Nat := 0x28
  sosi_si : Nat := 0x29
  convert_sosi_to_space : Bool := true

/-- `EBCDIC_TO_ASCII_JAK` (lines 183-255), in source order.  The key
`0x7A` appears twice in the Python dict literal with the same value, so
first-match lookup agrees with the dict. -/
def ebcdic_to_ascii_jak : List (Nat × Nat) :=
  [(0x00, 0x00), (0x01, 0x01), (0x02, 0x02), (0x03, 0x03),
   (0x04, 0x37), (0x05, 0x2D), (0x06, 0x2E), (0x07, 0x2F),
   (0x08, 0x16), (0x09, 0x05), (0x0A, 0x25), (0x0B, 0x0B),
   (0x0C, 0x0C), (0x0D, 0x0D), (0x0E, 0x0E), (0x0F, 0x0F),
   (0x10, 0x10), (0x11, 0x11), (0x12, 0x12), (0x13, 0x13),
   (0x14, 0x3C), (0x15, 0x3D), (0x16, 0x32), (0x17, 0x26),
   (0x18, 0x18), (0x19, 0x19), (0x1A, 0x3F), (0x1B, 0x27),
   (0x1C, 0x1C), (0x1D, 0x1D), (0x1E, 0x1E), (0x1F, 0x1F),
   (0x40, 0x20),
   (0x4A, 0x5B), (0x4B, 0x2E), (0x4C, 0x3C), (0x4D, 0x28),
   (0x4E, 0x2B), (0x4F, 0x21), (0x50, 0x26), (0x5A, 0x5D),
   (0x5B, 0x24), (0x5C, 0x2A), (0x5D, 0x29), (0x5E, 0x3B),
   (0x5F, 0x5E), (0x60, 0x2D), (0x61, 0x2F), (0x6A, 0x7C),
   (0x6B, 0x2C), (0x6C, 0x25), (0x6D, 0x5F), (0x6E, 0x3E),
   (0x6F, 0x3F), (0x7A, 0x3A), (0x7B, 0x23), (0x7C, 0x40),
   (0x7D, 0x27), (0x7E, 0x3D), (0x7F, 0x22),
   (0x81, 0x61), (0x82, 0x62), (0x83, 0x63), (0x84, 0x64),
   (0x85, 0x65), (0x86, 0x66), (0x87, 0x67), (0x88, 0x68),
   (0x89, 0x69),
   (0x91, 0x6A), (0x92, 0x6B), (0x93, 0x6C), (0x94, 0x6D),
   (0x95, 0x6E), (0x96, 0x6F), (0x97, 0x70), (0x98, 0x71),
   (0x99, 0x72),
   (0xA2, 0x73), (0xA3, 0x74), (0xA4, 0x75), (0xA5, 0x76),
   (0xA6, 0x77), (0xA7, 0x78), (0xA8, 0x79), (0xA9, 0x7A),
   (0xC1, 0x41), (0xC2, 0x42), (0xC3, 0x43), (0xC4, 0x44),
   (0xC5, 0x45), (0xC6, 0x46), (0xC7, 0x47), (0xC8, 0x48),
   (0xC9, 0x49),
   (0xD1, 0x4A), (0xD2, 0x4B), (0xD3, 0x4C), (0xD4, 0x4D),
   (0xD5, 0x4E), (0xD6, 0x4F), (0xD7, 0x50), (0xD8, 0x51),
   (0xD9, 0x52),
   (0xE2, 0x53), (0xE3, 0x54), (0xE4, 0x55), (0xE5, 0x56),
   (0xE6, 0x57), (0xE7, 0x58), (0xE8, 0x59), (0xE9, 0x5A),
   (0xF0, 0x30), (0xF1, 0x31), (0xF2, 0x32), (0xF3, 0x33),
   (0xF4, 0x34), (0xF5, 0x35), (0xF6, 0x36), (0xF7, 0x37),
   (0xF8, 0x38), (0xF9, 0x39),
   (0x79, 0x60), (0x7A, 0x3A), (0xBB, 0x5C), (0xBC, 0x7B),
   (0xBD, 0x7D), (0xBE, 0x7E)]

/-- `EBCDICDatasetConverter.convert_ebcdic_byte` (lines 388-390):
table lookup defaulting to the byte itself. -/
def convert_ebcdic_byte (b : Nat) : Nat :=
  ((ebcdic_to_ascii_jak.lookup b).getD b)

/-- `EBCDICDatasetConverter.process_sosi_codes` (lines 392-402). -/
def process_sosi_codes (cfg : ConversionConfig) (data : List Nat) : List Nat :=
  if cfg.convert_sosi_to_space = false then data
  else data.map (fun b => if b = cfg.sosi_so ∨ b = cfg.sosi_si then 0x20 else b)

/-- High nibble of a byte (`(byte_val >> 4) & 0x0F`). -/
def high_nibble (b : Nat) : Nat := (b >>> 4) &&& 15

/-- Low nibble of a byte (`byte_val & 0x0F`). -/
def low_nibble (b : Nat) : Nat := b &&& 15

/-- ASCII digit character for a nibble value ≤ 9 (`str(nibble)`). -/
def to_digit (n : Nat) : Char := Char.ofNat (48 + n)

/-- The indexed loop of `_convert_packed_decimal` (lines 432-449) with the
accumulated result threaded through; the singleton case is the
`i == len(packed_data) - 1` branch, where the low nibble is a sign. -/
def pd_loop : List Nat → List Char → List Char
  | [], acc => acc
  | [b], acc =>
    let acc2 := if high_nibble b ≤ 9 then acc ++ [to_digit (high_nibble b)] else acc
    if low_nibble b = 0xD then '-' :: acc2 else acc2
  | b :: c :: rest, acc =>
    let acc2 := if high_nibble b ≤ 9 then acc ++ [to_digit (high_nibble b)] else acc
    let acc3 := if low_nibble b ≤ 9 then acc2 ++ [to_digit (low_nibble b)] else acc2
    pd_loop (c :: rest) acc3

/-- `EBCDICDatasetConverter._convert_packed_decimal` (lines 428-454) as the
decoded character list (the Python `result` string; `encode('ascii')` is
the identity on these characters). -/
def convert_packed_decimal (packed_data : List Nat) : List Char :=
  pd_loop packed_data []

/-- `EBCDICDatasetConverter.convert_field_data` (lines 404-426): dispatch
on the field type; the result tags mirror the returned markers. -/
def convert_field_data (cfg : ConversionConfig) (field : LayoutField)
    (field_data : List Nat) : List Nat × String :=
  if field.type ∈ ["COMP", "COMP-1", "COMP-2", "COMP-3", "COMP-4", "COMP-5"] then
    if field.type = "COMP-3" then
      ((convert_packed_decimal field_data).map Char.toNat, "PACKED")
    else (field_data, "BINARY")
  else
    (process_sosi_codes cfg (field_data.map convert_ebcdic_byte), "DISPLAY")

/-- The field-slice extraction of `convert_dataset` (lines 561-569):
Python slice plus zero padding, with the pad count computed in `Int`
arithmetic exactly as Python does (`b'\x00' * n` is empty for `n ≤ 0`). -/
def extract_field_data (record : List Nat) (position length : Nat) : List Nat :=
  let fieldStart := position - 1
  let fieldEnd := fieldStart + length
  if fieldEnd > record.length then
    record.drop fieldStart ++
      List.replicate (((length : Int) - ((record.length : Int) - (fieldStart : Int))).toNat) 0
  else
    (record.drop fieldStart).take length

/-- The capture groups of the field regex (line 331) for one matched
layout line: level, name, optional PIC clause, optional USAGE keyword,
optional OCCURS count, optional REDEFINES target, optional VALUE
literal, trailing description.  The regex itself is surface syntax; the
layout fold below is quantified over every possible group tuple. -/
structure MatchLine where
  level : Nat
  name : String
  picture : Option String := none
  usage : Option String := none
  occurs : Option Nat := none
  redefines : Option String := none
  value : Option String := none
  description : String := ""

/-- Field construction for one matched line (lines 345-370): default the
PIC clause to `X(1)`, derive the type from USAGE via `USAGE_TYPES`,
assign the current running offset as position, then fill in the
computed length. -/
def mk_layout_field (m : MatchLine) (cur : Nat) : LayoutField :=
  let pic := py_or m.picture ("X(1)")
  let ftype :=
    match m.usage with
    | none => "PIC"
    | some u => if u = "" then "PIC" else usage_type_of (upper_string u)
  let base : LayoutField :=
    { name := m.name, level := m.level, type := ftype, picture := pic,
      length := 0, position := cur, occurs := m.occurs.getD 1,
      redefines := m.redefines, value := m.value, usage := m.usage,
      description := py_strip m.description }
  { base with length := calculate_field_length base }

/-- The field-emitting fold of `parse_layout_file` (lines 322-379):
skip group headers (level ≤ 2 without a PIC clause), emit every other
matched line, and advance the running offset only for lines without
REDEFINES. -/
def parse_layout_fields : List MatchLine → Nat → List LayoutField
  | [], _ => []
  | m :: ms, cur =>
    if m.level ≤ 2 ∧ py_truthy m.picture = false then parse_layout_fields ms cur
    else
      mk_layout_field m cur ::
        parse_layout_fields ms
          (if py_truthy m.redefines then cur
           else cur + (mk_layout_field m cur).length)

/-- `parse_layout_file` field list: the fold starting at offset 1
(line 302, `current_position = 1`). -/
def parse_layout_file (lines : List MatchLine) : List LayoutField :=
  parse_layout_fields lines 1

/-- The failure modes of `parse_layout_file` (lines 298-299, 317-318,
381-382). -/
inductive LayoutFailure
  | fileNotFound
  | undecodable
  | noFields
deriving DecidableEq

/-- First decoder in the candidate list that succeeds on the bytes
(lines 308-315: each encoding is tried, `UnicodeDecodeError` moves on). -/
def try_encodings : List (List Nat → Option String) → List Nat → Option String
  | [], _ => none
  | d :: ds, bytes =>
    match d bytes with
    | some s => some s
    | none => try_encodings ds bytes

/-- The `latin1` codec: every byte value maps to the code point of the
same value, so decoding never fails. -/
def latin1_decode (bytes : List Nat) : Option String :=
  some (String.mk (bytes.map (fun b => Char.ofNat (b % 256))))

/-- `parse_layout_file` end to end (lines 290-386).  The `shift_jis`,
`utf-8` and `cp932` codecs are external library code, abstracted as
arbitrary partial decoders; `latin1` is last in the fixed priority list
(line 305) and is total.  Line matching (the regex over the decoded
content) is likewise abstracted as a function from the content to the
matched group tuples. -/
def parse_layout_result (sj u8 cp : List Nat → Option String)
    (line_match : String → List MatchLine)
    (file_exists : Bool) (bytes : List Nat) :
    Except LayoutFailure (List LayoutField) :=
  if file_exists = false then Except.error LayoutFailure.fileNotFound
  else
    match try_encodings [sj, u8, cp, latin1_decode] bytes with
    | none => Except.error LayoutFailure.undecodable
    | some content =>
      let fields := parse_layout_file (line_match content)
      if fields.isEmpty then Except.error LayoutFailure.noFields
      else Except.ok fields

/-- The statistics dictionary of `convert_dataset` (lines 536-541). -/
structure Stats where
  records_converted : Nat := 0
  bytes_processed : Nat := 0
  conversion_errors : Nat := 0
  field_conversions : Nat := 0

/-- Record segmentation of `convert_dataset` (lines 526-553): the loop
runs `file_size // record_length` times and each iteration reads the
next `record_length` bytes. -/
def records_of (data : List Nat) (record_length : Nat) : List (List Nat) :=
  (List.range (data.length / record_length)).map
    (fun i => (data.drop (i * record_length)).take record_length)

/-- Field-based conversion of one record (lines 557-582): slice each
field, transcode it, count a field conversion, then pad the
concatenation with spaces to the record length and truncate overflow.
Returns the output bytes and the number of field conversions. -/
def convert_record (cfg : ConversionConfig) (fields : List LayoutField)
    (record : List Nat) : List Nat × Nat :=
  if fields.isEmpty then
    (process_sosi_codes cfg (record.map convert_ebcdic_byte), 0)
  else
    let folded := fields.foldl
      (fun (acc : List Nat × Nat) f =>
        (acc.1 ++ (convert_field_data cfg f (extract_field_data record f.position f.length)).1,
         acc.2 + 1))
      ([], 0)
    let padded := folded.1 ++ List.replicate (cfg.record_length - folded.1.length) 0x20
    (padded.take cfg.record_length, folded.2)

/-- The `try`/`except` record loop of `convert_dataset` (lines 547-601).
The fallible body that converts one record is abstracted as `proc`
(Python exceptions become `Except.error`): on success the output is
appended and the success counters advance, on failure only
`conversion_errors` advances and the loop continues with the next
record.  `proc` returns the converted bytes and the number of field
conversions performed. -/
def record_loop (proc : List Nat → Except String (List Nat × Nat)) :
    List (List Nat) → Stats → List Nat → Stats × List Nat
  | [], s, out => (s, out)
  | r :: rs, s, out =>
    match proc r with
    | Except.ok res =>
      record_loop proc rs
        { s with
          bytes_processed := s.bytes_processed + r.length,
          field_conversions := s.field_conversions + res.2,
          records_converted := s.records_converted + 1 }
        (out ++ res.1)
    | Except.error _ =>
      record_loop proc rs
        { s with conversion_errors := s.conversion_errors + 1 } out

/-- `convert_dataset` record phase (lines 526-601): segment the input
bytes into full records and run the record loop from fresh statistics. -/
def convert_dataset (proc : List Nat → Except String (List Nat × Nat))
    (data : List Nat) (record_length : Nat) : Stats × List Nat :=
  record_loop proc (records_of data record_length) {} []

/-- The `SALARY` field of the sample layout (source lines 633, 650, 655):
`PIC S9(7)V99` stored as packed decimal (`COMP-3`). -/
def salary_field : LayoutField :=
  { name := "SALARY", level := 3, type := "COMP-3", picture := "S9(7)V99",
    length := 0, position := 1, usage := some ("COMP-3") }

/-- A field whose USAGE is `INDEX` (source maps it to type `INDEX`). -/
def index_field : LayoutField :=
  { name := "IDX", level := 3, type := "INDEX", picture := "X(1)",
    length := 1, position := 1, usage := some ("INDEX") }

/-- A binary field whose USAGE is `BINARY` (source maps it to `COMP`). -/
def comp_field : LayoutField :=
  { name := "BIN", level := 3, type := "COMP", picture := "9(4)",
    length := 2, position := 1, usage := some ("BINARY") }

/-- Matched layout line `03 A PIC X(5).`. -/
def ml_a : MatchLine := { level := 3, name := "A", picture := some ("X(5)") }

/-- Matched layout line `03 B REDEFINES A PIC X(5).`. -/
def ml_b : MatchLine :=
  { level := 3, name := "B", picture := some ("X(5)"), redefines := some ("A") }

/-- Matched layout line `03 F1.` (no PIC clause, defaulted to `X(1)`). -/
def ml_f1 : MatchLine := { level := 3, name := "F1" }

/-- Matched layout line `03 F2.`. -/
def ml_f2 : MatchLine := { level := 3, name := "F2" }

/-- The field the parser emits for `ml_f1` at offset 1. -/
def field_f1 : LayoutField := mk_layout_field ml_f1 1

/-- The field the parser emits for `ml_f2` at offset 2. -/
def field_f2 : LayoutField := mk_layout_field ml_f2 2

/-- Total number of class symbols (`9`, `X`, `A`, `N`) in a picture. -/
def class_symbol_count (l : List Char) : Nat :=
  l.countP (fun c => c == '9' || c == 'X' || c == 'A' || c == 'N')

/-- Digit characters contributed by one non-final packed-decimal byte
(both nibbles, each kept only when ≤ 9). -/
def byte_digits (b : Nat) : List Char :=
  (if high_nibble b ≤ 9 then [to_digit (high_nibble b)] else []) ++
  (if low_nibble b ≤ 9 then [to_digit (low_nibble b)] else [])

/-- Packed-decimal decoding as the claim describes it: an optional sign
taken from the last byte's low nibble, the digit pairs of every byte but
the last, and the high-nibble digit of the last byte. -/
def packed_decimal_spec (l : List Nat) : List Char :=
  match l.getLast? with
  | none => []
  | some b =>
    (if low_nibble b = 0xD then ['-'] else []) ++
    ((l.dropLast.map byte_digits).flatten ++
     (if high_nibble b ≤ 9 then [to_digit (high_nibble b)] else []))

/-- Number of records of a list on which `proc` fails. -/
def err_count (proc : List Nat → Except String (List Nat × Nat)) :
    List (List Nat) → Nat
  | [] => 0
  | r :: rs =>
    (match proc r with
     | Except.ok _ => 0
     | Except.error _ => 1) + err_count proc rs

/-- Number of records of a list on which `proc` succeeds. -/
def ok_count (proc : List Nat → Except String (List Nat × Nat)) :
    List (List Nat) → Nat
  | [] => 0
  | r :: rs =>
    (match proc r with
     | Except.ok _ => 1
     | Except.error _ => 0) + ok_count proc rs

/-- Input bytes consumed by the successfully processed records. -/
def ok_bytes (proc : List Nat → Except String (List Nat × Nat)) :
    List (List Nat) → Nat
  | [] => 0
  | r :: rs =>
    (match proc r with
     | Except.ok _ => r.length
     | Except.error _ => 0) + ok_bytes proc rs

/-- Field conversions performed by the successfully processed records. -/
def ok_fields (proc : List Nat → Except String (List Nat × Nat)) :
    List (List Nat) → Nat
  | [] => 0
  | r :: rs =>
    (match proc r with
     | Except.ok res => res.2
     | Except.error _ => 0) + ok_fields proc rs

/-- Concatenated output of the successfully processed records. -/
def ok_output (proc : List Nat → Except String (List Nat × Nat)) :
    List (List Nat) → List Nat
  | [] => []
  | r :: rs =>
    (match proc r with
     | Except.ok res => res.1
     | Except.error _ => []) ++ ok_output proc rs

/-- A concrete record processor that fails exactly on empty records. -/
def witness_proc : List Nat → Except String (List Nat × Nat)
  | [] => Except.error ("empty record")
  | r => Except.ok (r, 1)

/-- A concrete record processor that always succeeds. -/
def witness_ok_proc : List Nat → Except String (List Nat × Nat) :=
  fun r => Except.ok (r, 0)

/-- Claim C1: the claim states that for PIC `S9(7)V99` with packed-decimal
usage the digit count is 9 and the byte length is (9+1)/2 = 5.  The code
evaluates to digit count 7 (the parenthesized-repetition search matches
`9(7)` and discards the trailing `99`) and byte length (7+1)/2 = 4,
contradicting the claim and the sample generator's own comment that this
field occupies 5 packed bytes. -/
theorem c1_code_eval :
    parse_picture_clause ("S9(7)V99") = (7, "NUMERIC") ∧
    calculate_field_length salary_field = 4 ∧
    calculate_field_length salary_field ≠ 5 :=
  ⟨rfl, rfl, by decide⟩

/-- Claim C2 counterexample: a field of kind Index (USAGE `INDEX`, type
`INDEX`) is not passed through byte-for-byte: the byte `0x40` is sent
through the Display character path and comes out as `0x20`. -/
theorem c2_counterexample :
    usage_type_of ("INDEX") = "INDEX" ∧
    convert_field_data {} index_field [0x40] = ([0x20], "DISPLAY") ∧
    (convert_field_data {} index_field [0x40]).1 ≠ [0x40] :=
  ⟨rfl, rfl, by decide⟩

/-- Claim C3 counterexample: for PIC `9X9` the code computes digit count 3
(the total number of class symbols), not 1 (the longest run), refuting
the claim's longest-run rule. -/
theorem c3_counterexample :
    (parse_picture_clause ("9X9")).1 = 3 ∧ (parse_picture_clause ("9X9")).1 ≠ 1 :=
  ⟨rfl, by decide⟩

/-- Claim C4: the claim states a REDEFINES field shares the referenced
field's position.  Evaluating the parser on `A PIC X(5)` followed by
`B REDEFINES A PIC X(5)` shows B is emitted at position 6 (the running
cursor after A), not at A's position 1: the parser never looks the
referenced field up. -/
theorem c4_code_eval :
    (parse_layout_file [ml_a, ml_b]).map LayoutField.name = ["A", "B"] ∧
    (parse_layout_file [ml_a, ml_b]).map LayoutField.redefines = [none, some ("A")] ∧
    (parse_layout_file [ml_a, ml_b]).map LayoutField.position = [1, 6] ∧
    (6 : Nat) ≠ 1 :=
  ⟨rfl, rfl, rfl, by decide⟩

/-- Claim C5 counterexample: for a 4-byte record and a field at position 6
with length 3 (start offset strictly beyond the buffer end), the
extracted data is 4 zero bytes, not the declared length 3: the pad count
`length - (buffer - start)` overshoots when `start > buffer`. -/
theorem c5_counterexample :
    extract_field_data [1, 2, 3, 4] 6 3 = [0, 0, 0, 0] ∧
    (extract_field_data [1, 2, 3, 4] 6 3).length ≠ 3 :=
  ⟨rfl, by decide⟩

/-- Claim C2 amended: fields of the binary kinds Binary (`COMP`,
`COMP-4`, `COMP-5`), Comp1 (`COMP-1`) and Comp2 (`COMP-2`) pass through
the transcoder byte-for-byte unmodified; Index and Pointer fields do
not: they take the Display path (character-table lookup followed by
SOSI neutralization). -/
theorem c2_amended (cfg : ConversionConfig) (f : LayoutField) (data : List Nat) :
    (f.type = "COMP" ∨ f.type = "COMP-1" ∨ f.type = "COMP-2" ∨
        f.type = "COMP-4" ∨ f.type = "COMP-5" →
      convert_field_data cfg f data = (data, "BINARY")) ∧
    (f.type = "INDEX" ∨ f.type = "POINTER" →
      convert_field_data cfg f data =
        (process_sosi_codes cfg (data.map convert_ebcdic_byte), "DISPLAY")) := by
  constructor
  · intro h
    rcases h with h | h | h | h | h <;> simp [convert_field_data, h]
  · intro h
    rcases h with h | h <;> simp [convert_field_data, h]

/-- Claim C2 amended, witness: a concrete `COMP` field passes its two
bytes through unchanged. -/
theorem c2_amended_witness :
    convert_field_data {} comp_field [7, 8] = ([7, 8], "BINARY") :=
  (c2_amended {} comp_field [7, 8]).1 (Or.inl rfl)

theorem run_lens_aux_spec (c : Char) (l : List Char) :
    (run_lens_aux c l).1 + (run_lens_aux c l).2.sum =
      l.countP (fun x => x == c) := by
  induction l with
  | nil => simp [run_lens_aux]
  | cons x xs ih =>
    by_cases h : x = c
    · simp [run_lens_aux, h, List.countP_cons] at *
      omega
    · by_cases hz : (run_lens_aux c xs).1 = 0 <;>
        simp [run_lens_aux, h, hz, List.countP_cons] at * <;> omega

theorem run_lens_sum (c : Char) (l : List Char) :
    (run_lens c l).sum = l.countP (fun x => x == c) := by
  have h := run_lens_aux_spec c l
  unfold run_lens
  by_cases hz : (run_lens_aux c l).1 = 0 <;> simp [hz] at * <;> omega

theorem class_symbol_head (x : Char) :
    ((if x == '9' then 1 else 0) + (if x == 'X' then 1 else 0) +
     (if x == 'A' then 1 else 0) + (if x == 'N' then 1 else 0) : Nat) =
      if (x == '9' || x == 'X' || x == 'A' || x == 'N') then 1 else 0 := by
  by_cases h9 : x = '9'
  · subst h9; decide
  · by_cases hX : x = 'X'
    · subst hX; decide
    · by_cases hA : x = 'A'
      · subst hA; decide
      · by_cases hN : x = 'N'
        · subst hN; decide
        · simp [h9, hX, hA, hN]

theorem countP_four_classes (l : List Char) :
    l.countP (fun x => x == '9') + l.countP (fun x => x == 'X') +
    l.countP (fun x => x == 'A') + l.countP (fun x => x == 'N') =
      class_symbol_count l := by
  induction l with
  | nil => simp [class_symbol_count]
  | cons x xs ih =>
    unfold class_symbol_count at *
    simp only [List.countP_cons]
    have hh := class_symbol_head x
    omega

theorem count_loop_fst (wp : List Char) (total : Nat) (dt : String) :
    (count_loop class_patterns wp total dt).1 =
      total + (run_lens '9' wp).sum + (run_lens 'X' wp).sum +
      (run_lens 'A' wp).sum + (run_lens 'N' wp).sum := by
  simp [class_patterns, count_loop]

/-- Claim C3 amended: for a PIC clause whose working picture has no
parenthesized repetition, the computed digit count is the TOTAL number
of class symbols (`9`, `X`, `A`, `N`) appearing — the sum of the lengths
of all runs, not the longest single run — defaulting to 1 when no class
symbol occurs.  For `9X9` this gives 3. -/
theorem c3_amended (pic : String)
    (h : search_paren (working_picture pic) = none) :
    (parse_picture_clause pic).1 =
      max (class_symbol_count (working_picture pic)) 1 := by
  simp only [parse_picture_clause, h]
  rw [count_loop_fst, run_lens_sum, run_lens_sum, run_lens_sum, run_lens_sum]
  have hh := countP_four_classes (working_picture pic)
  omega

/-- Claim C3 amended, witness: instantiated at `9X9`, whose working
picture has no parenthesized repetition and three class symbols. -/
theorem c3_amended_witness :
    search_paren (working_picture ("9X9")) = none ∧
    (parse_picture_clause ("9X9")).1 =
      max (class_symbol_count (working_picture ("9X9"))) 1 :=
  ⟨rfl, c3_amended "9X9" rfl⟩

/-- Claim C5 amended: during record conversion, for every field whose
slice extends past the end of the record buffer AND whose start offset
lies at or before the buffer end, the bytes handed to the transcoder are
the available tail of the record followed by zero bytes, totalling
exactly the field's declared length; the extraction is total, so the
record is not failed.  (Fields starting strictly beyond the buffer end
are excluded: there the padded data exceeds the declared length, as the
counterexample shows.) -/
theorem c5_amended (record : List Nat) (position length : Nat)
    (h1 : 1 ≤ position) (h2 : position - 1 ≤ record.length)
    (h3 : record.length < position - 1 + length) :
    extract_field_data record position length =
      record.drop (position - 1) ++
        List.replicate (length - (record.length - (position - 1))) 0 ∧
    (extract_field_data record position length).length = length := by
  have hcond : position - 1 + length > record.length := h3
  have heq : extract_field_data record position length =
      record.drop (position - 1) ++
        List.replicate (length - (record.length - (position - 1))) 0 := by
    unfold extract_field_data
    rw [if_pos hcond]
    congr 1
    congr 1
    omega
  refine ⟨heq, ?_⟩
  rw [heq]
  simp [List.length_drop]
  omega

/-- Claim C5 amended, witness: a 4-byte record with a field at position 3
of length 5 yields the 2-byte tail plus 3 zero bytes, exactly 5 bytes. -/
theorem c5_amended_witness :
    (1 ≤ 3) ∧ ((3 : Nat) - 1 ≤ ([1, 2, 3, 4] : List Nat).length) ∧
    (([1, 2, 3, 4] : List Nat).length < 3 - 1 + 5) ∧
    (extract_field_data [1, 2, 3, 4] 3 5 =
        ([1, 2, 3, 4] : List Nat).drop (3 - 1) ++
          List.replicate (5 - (([1, 2, 3, 4] : List Nat).length - (3 - 1))) 0 ∧
      (extract_field_data [1, 2, 3, 4] 3 5).length = 5) :=
  ⟨by decide, by decide, by decide,
   c5_amended [1, 2, 3, 4] 3 5 (by decide) (by decide) (by decide)⟩

theorem record_loop_spec (proc : List Nat → Except String (List Nat × Nat)) :
    ∀ (l : List (List Nat)) (s : Stats) (out : List Nat),
      record_loop proc l s out =
        ({ records_converted := s.records_converted + ok_count proc l,
           bytes_processed := s.bytes_processed + ok_bytes proc l,
           conversion_errors := s.conversion_errors + err_count proc l,
           field_conversions := s.field_conversions + ok_fields proc l },
         out ++ ok_output proc l) := by
  intro l
  induction l with
  | nil =>
    intro s out
    cases s
    simp [record_loop, ok_count, ok_bytes, err_count, ok_fields, ok_output]
  | cons r rs ih =>
    intro s out
    cases hp : proc r with
    | ok res =>
      simp only [record_loop, hp, ih, ok_count, ok_bytes, err_count, ok_fields,
        ok_output, Stats.mk.injEq, Prod.mk.injEq, List.append_assoc]
      refine ⟨⟨?_, ?_, ?_, ?_⟩, trivial⟩ <;> omega
    | error e =>
      simp only [record_loop, hp, ih, ok_count, ok_bytes, err_count, ok_fields,
        ok_output, Stats.mk.injEq, Prod.mk.injEq, List.nil_append]
      refine ⟨⟨?_, ?_, ?_, ?_⟩, trivial⟩ <;> omega

theorem err_count_append (proc : List Nat → Except String (List Nat × Nat))
    (a b : List (List Nat)) :
    err_count proc (a ++ b) = err_count proc a + err_count proc b := by
  induction a with
  | nil => simp [err_count]
  | cons r rs ih => simp [err_count, ih]; omega

theorem ok_count_append (proc : List Nat → Except String (List Nat × Nat))
    (a b : List (List Nat)) :
    ok_count proc (a ++ b) = ok_count proc a + ok_count proc b := by
  induction a with
  | nil => simp [ok_count]
  | cons r rs ih => simp [ok_count, ih]; omega

theorem ok_output_append (proc : List Nat → Except String (List Nat × Nat))
    (a b : List (List Nat)) :
    ok_output proc (a ++ b) = ok_output proc a ++ ok_output proc b := by
  induction a with
  | nil => simp [ok_output]
  | cons r rs ih => simp [ok_output, ih]

/-- Claim C6: an exception raised while processing one record increments
`conversion_errors` exactly once for that record, leaves the run alive,
and does not prevent any later record from being converted: relative to
the same run without the failing record, the error count is exactly one
higher while the converted-record count and the emitted output bytes
are unchanged — every record after the failing one still contributes. -/
theorem c6_error_containment (proc : List Nat → Except String (List Nat × Nat))
    (pre post : List (List Nat)) (r : List Nat) (e : String)
    (s : Stats) (out : List Nat) (h : proc r = Except.error e) :
    (record_loop proc (pre ++ r :: post) s out).1.conversion_errors
        = s.conversion_errors + err_count proc pre + 1 + err_count proc post ∧
    (record_loop proc (pre ++ r :: post) s out).1.records_converted
        = s.records_converted + ok_count proc pre + ok_count proc post ∧
    (record_loop proc (pre ++ r :: post) s out).2
        = out ++ ok_output proc pre ++ ok_output proc post := by
  rw [record_loop_spec]
  refine ⟨?_, ?_, ?_⟩
  · simp only [err_count_append, err_count, h]
    omega
  · simp only [ok_count_append, ok_count, h]
    omega
  · simp only [ok_output_append, ok_output, h, List.nil_append, List.append_assoc]

/-- Claim C6 witness: a run over four records where the third (empty)
record fails: the error is counted once and the other three records are
all converted, the two after the failure included. -/
theorem c6_error_containment_witness :
    witness_proc [] = Except.error ("empty record") ∧
    ((record_loop witness_proc ([[1]] ++ [] :: [[2], [3]]) {} []).1.conversion_errors
        = ({} : Stats).conversion_errors + err_count witness_proc [[1]] + 1 +
            err_count witness_proc [[2], [3]] ∧
      (record_loop witness_proc ([[1]] ++ [] :: [[2], [3]]) {} []).1.records_converted
        = ({} : Stats).records_converted + ok_count witness_proc [[1]] +
            ok_count witness_proc [[2], [3]] ∧
      (record_loop witness_proc ([[1]] ++ [] :: [[2], [3]]) {} []).2
        = [] ++ ok_output witness_proc [[1]] ++ ok_output witness_proc [[2], [3]]) :=
  ⟨rfl, c6_error_containment witness_proc [[1]] [[2], [3]] [] ("empty record") {} [] rfl⟩

/-- Claim C7: for an input of size S and record length L > 0 the pipeline
processes exactly floor(S / L) records, each of the full length L, and
the run is identical to the run on the input truncated to L * floor(S/L)
bytes: the trailing partial record (when S mod L ≠ 0) is never read,
never converted, and never counted as an error. -/
theorem c7_record_count (proc : List Nat → Except String (List Nat × Nat))
    (data : List Nat) (L : Nat) (hL : 0 < L) :
    (records_of data L).length = data.length / L ∧
    (records_of data L).all (fun r => r.length == L) = true ∧
    convert_dataset proc data L =
      convert_dataset proc (data.take (L * (data.length / L))) L := by
  have hq : data.length / L * L ≤ data.length := Nat.div_mul_le_self _ _
  refine ⟨by simp [records_of], ?_, ?_⟩
  · rw [List.all_eq_true]
    intro r hr
    simp only [records_of, List.mem_map, List.mem_range] at hr
    obtain ⟨i, hi, rfl⟩ := hr
    have h1 : (i + 1) * L ≤ data.length / L * L := Nat.mul_le_mul_right L hi
    have h2 : (i + 1) * L = i * L + L := by ring
    simp only [List.length_take, List.length_drop, beq_iff_eq]
    omega
  · have hM : L * (data.length / L) ≤ data.length := by
      rw [Nat.mul_comm]
      exact hq
    have hlen : (data.take (L * (data.length / L))).length =
        L * (data.length / L) := by
      rw [List.length_take]
      omega
    have hq2 : (data.take (L * (data.length / L))).length / L =
        data.length / L := by
      rw [hlen, Nat.mul_div_cancel_left _ hL]
    unfold convert_dataset
    congr 1
    unfold records_of
    rw [hq2]
    apply List.map_congr_left
    intro i hi
    rw [List.mem_range] at hi
    have h1 : (i + 1) * L ≤ data.length / L * L := Nat.mul_le_mul_right L hi
    have h2 : (i + 1) * L = i * L + L := by ring
    rw [List.drop_take, List.take_take]
    have h4 : i * L + L ≤ L * (data.length / L) := by
      rw [Nat.mul_comm L]
      omega
    have h3 : L ⊓ (L * (data.length / L) - i * L) = L := by omega
    rw [h3]

/-- Claim C7 witness: a 5-byte input with record length 2 yields exactly
2 full records and the run equals the run on the first 4 bytes. -/
theorem c7_record_count_witness :
    0 < 2 ∧
    ((records_of [1, 2, 3, 4, 5] 2).length = ([1, 2, 3, 4, 5] : List Nat).length / 2 ∧
     (records_of [1, 2, 3, 4, 5] 2).all (fun r => r.length == 2) = true ∧
     convert_dataset witness_ok_proc [1, 2, 3, 4, 5] 2 =
       convert_dataset witness_ok_proc
         ([1, 2, 3, 4, 5].take (2 * (([1, 2, 3, 4, 5] : List Nat).length / 2))) 2) :=
  ⟨by decide, c7_record_count witness_ok_proc [1, 2, 3, 4, 5] 2 (by decide)⟩

theorem pd_loop_spec (l : List Nat) :
    ∀ acc : List Char,
      pd_loop l acc =
        match l.getLast? with
        | none => acc
        | some b =>
          (if low_nibble b = 0xD then ['-'] else []) ++
          (acc ++ ((l.dropLast.map byte_digits).flatten ++
            (if high_nibble b ≤ 9 then [to_digit (high_nibble b)] else []))) := by
  induction l with
  | nil => intro acc; rfl
  | cons b t ih =>
    intro acc
    cases t with
    | nil =>
      by_cases h1 : low_nibble b = 0xD <;> by_cases h2 : high_nibble b ≤ 9 <;>
        simp [pd_loop, h1, h2]
    | cons c r =>
      rw [List.getLast?_cons_cons, List.dropLast_cons₂]
      cases hg : (c :: r).getLast? with
      | none =>
        rw [List.getLast?_eq_none_iff] at hg
        exact absurd hg (by simp)
      | some lb =>
        have hstep : pd_loop (b :: c :: r) acc =
            pd_loop (c :: r) (acc ++ byte_digits b) := by
          by_cases h2 : high_nibble b ≤ 9 <;> by_cases h3 : low_nibble b ≤ 9 <;>
            simp [pd_loop, byte_digits, h2, h3]
        rw [hstep, ih, hg]
        simp [List.append_assoc]

/-- Claim C8: packed-decimal decode appends, for each byte except the
last, each nibble ≤ 9 as a decimal digit (larger nibbles are silently
dropped); for the last byte only the high nibble (when ≤ 9) is appended
and a low nibble of 0xD prefixes a minus sign while every other value
yields no prefix; in particular `[0x05, 0x00, 0x00, 0x0C]` decodes to
the digit string `0500000` with no sign. -/
theorem c8_packed_decimal :
    (∀ l : List Nat, convert_packed_decimal l = packed_decimal_spec l) ∧
    convert_packed_decimal [0x05, 0x00, 0x00, 0x0C] = "0500000".data := by
  constructor
  · intro l
    rw [convert_packed_decimal, pd_loop_spec, packed_decimal_spec]
    cases l.getLast? <;> simp
  · rfl

theorem mk_layout_field_position (m : MatchLine) (cur : Nat) :
    (mk_layout_field m cur).position = cur := rfl

theorem mk_layout_field_redefines (m : MatchLine) (cur : Nat) :
    (mk_layout_field m cur).redefines = m.redefines := rfl

theorem parse_layout_fields_head :
    ∀ (ms : List MatchLine) (cur : Nat) (f : LayoutField) (fs : List LayoutField),
      parse_layout_fields ms cur = f :: fs → f.position = cur := by
  intro ms
  induction ms with
  | nil => intro cur f fs h; simp [parse_layout_fields] at h
  | cons m ms ih =>
    intro cur f fs h
    rw [parse_layout_fields] at h
    split at h
    · exact ih cur f fs h
    · injection h with h1 _
      rw [← h1, mk_layout_field_position]

theorem parse_layout_fields_chain :
    ∀ (ms : List MatchLine) (cur : Nat) (pre : List LayoutField)
      (f g : LayoutField) (post : List LayoutField),
      parse_layout_fields ms cur = pre ++ f :: g :: post →
      py_truthy f.redefines = false →
      g.position = f.position + f.length := by
  intro ms
  induction ms with
  | nil =>
    intro cur pre f g post h _
    exact absurd h (by cases pre <;> simp [parse_layout_fields])
  | cons m ms ih =>
    intro cur pre f g post h hred
    rw [parse_layout_fields] at h
    split at h
    · exact ih cur pre f g post h hred
    · cases pre with
      | nil =>
        rw [List.nil_append] at h
        injection h with h1 h2
        subst h1
        rw [mk_layout_field_redefines] at hred
        rw [hred] at h2
        have hg := parse_layout_fields_head ms _ g post h2
        rw [hg, mk_layout_field_position]
        simp
      | cons p pre2 =>
        rw [List.cons_append] at h
        injection h with _ h2
        exact ih _ pre2 f g post h2 hred

/-- Claim C9: in every parsed layout, whenever a field that does not
declare REDEFINES is immediately followed by another field, the later
field's position equals the earlier field's position plus its length:
the parser keeps a single running offset cursor advanced exactly by the
lengths of the non-redefining fields. -/
theorem c9_offset_invariant (lines : List MatchLine) (pre : List LayoutField)
    (f g : LayoutField) (post : List LayoutField)
    (h : parse_layout_file lines = pre ++ f :: g :: post)
    (hred : py_truthy f.redefines = false) :
    g.position = f.position + f.length :=
  parse_layout_fields_chain lines 1 pre f g post h hred

/-- Claim C9 witness: two plain one-byte fields parse to positions 1
and 2 = 1 + 1. -/
theorem c9_offset_invariant_witness :
    parse_layout_file [ml_f1, ml_f2] = [] ++ field_f1 :: field_f2 :: [] ∧
    py_truthy field_f1.redefines = false ∧
    field_f2.position = field_f1.position + field_f1.length :=
  ⟨rfl, rfl, c9_offset_invariant [ml_f1, ml_f2] [] field_f1 field_f2 [] rfl rfl⟩

/-- Claim C10: the layout-parse failure branch for a file undecodable
under all candidate encodings is unreachable, because the last candidate
(`latin1`) decodes every byte sequence: whatever the other codecs and
the line matcher do, `parse_layout_result` never returns the
`undecodable` error — an existing layout file can only fail by producing
zero fields. -/
theorem c10_latin1_fallback (sj u8 cp : List Nat → Option String)
    (line_match : String → List MatchLine)
    (file_exists : Bool) (bytes : List Nat) :
    parse_layout_result sj u8 cp line_match file_exists bytes ≠
      Except.error LayoutFailure.undecodable := by
  unfold parse_layout_result
  split
  · simp
  · cases h1 : sj bytes <;> cases h2 : u8 bytes <;> cases h3 : cp bytes <;>
      simp [try_encodings, latin1_decode, h1, h2, h3] <;> split <;> simp

end EbcdicConverter
